import Mathlib

/-
Verification of the sktime excerpt: the ExponentTransformer / SqrtTransformer
pair (sktime/transformations/series/exponent.py), the HFTransformersForecaster
adapter and its PyTorchDataset window generator
(sktime/forecasting/hf_transformers_forecaster.py).

Numeric series values are modelled over the reals where real-power arithmetic
is involved (np.power with a real exponent), and over the rationals where the
code only compares, slices and copies values.  A float NaN entry is modelled
as `Option` `none` where the code tests for missing values.
-/

namespace Sktime

/-
ExponentTransformer._transform:  Xt = np.power(X.copy() + self._offset_value, self.power)
ExponentTransformer._inverse_transform:  Xt = np.power(X.copy(), 1.0 / self.power) - self._offset_value
Elementwise on the series values; `^` below is the real power `Real.rpow`,
the real-number model of np.power on its real domain.
-/

/-- Elementwise forward transform: (x + offset) ** power. -/
noncomputable def exponentTransform (power offset x : ℝ) : ℝ :=
  (x + offset) ^ power

/-- Elementwise inverse transform: x ** (1.0 / power) - offset. -/
noncomputable def exponentInverseTransform (power offset x : ℝ) : ℝ :=
  x ^ (1 / power) - offset

/-- Forward transform of a whole series (elementwise over the values). -/
noncomputable def exponentTransformSeries (power offset : ℝ) (xs : List ℝ) : List ℝ :=
  xs.map (exponentTransform power offset)

/-- Inverse transform of a whole series (elementwise over the values). -/
noncomputable def exponentInverseTransformSeries (power offset : ℝ) (xs : List ℝ) : List ℝ :=
  xs.map (exponentInverseTransform power offset)

/-
SqrtTransformer.__init__ calls ExponentTransformer.__init__(power=0.5, offset=offset),
so its transform and inverse transform are the parent computations at power 0.5.
-/

/-- SqrtTransformer forward transform: (x + offset) ** 0.5. -/
noncomputable def sqrtTransform (offset x : ℝ) : ℝ :=
  (x + offset) ^ (0.5 : ℝ)

/-- SqrtTransformer inverse transform: x ** (1.0 / 0.5) - offset. -/
noncomputable def sqrtInverseTransform (offset x : ℝ) : ℝ :=
  x ^ (1 / (0.5 : ℝ)) - offset

/- Round-trip of one element when the shifted value is non-negative. -/
theorem exponent_roundtrip_pointwise (power offset x : ℝ) (hp : power ≠ 0)
    (hx : 0 ≤ x + offset) :
    exponentInverseTransform power offset (exponentTransform power offset x) = x := by
  unfold exponentTransform exponentInverseTransform
  have h1 : ((x + offset) ^ power) ^ (1 / power) = (x + offset) ^ (power * (1 / power)) :=
    (Real.rpow_mul hx power (1 / power)).symm
  rw [h1, mul_one_div_cancel hp, Real.rpow_one]
  ring

/-- C1 (amended): for nonzero power, the inverse transform undoes the forward
transform on every series all of whose values are non-negative after the
offset shift: inverse_transform(transform(X)) == X. -/
theorem c1_roundtrip (power offset : ℝ) (xs : List ℝ) (hp : power ≠ 0)
    (hx : ∀ x ∈ xs, 0 ≤ x + offset) :
    exponentInverseTransformSeries power offset
      (exponentTransformSeries power offset xs) = xs := by
  unfold exponentTransformSeries exponentInverseTransformSeries
  rw [List.map_map]
  induction xs with
  | nil => rfl
  | cons h t ih =>
      simp only [List.map_cons, List.cons.injEq]
      constructor
      · exact exponent_roundtrip_pointwise power offset h hp (hx h (by simp))
      · exact ih (fun x hmem => hx x (List.mem_cons_of_mem h hmem))

/-- C1 witness: concrete round trip at power 2, offset 3, series [1, -3]. -/
theorem c1_roundtrip_witness :
    exponentInverseTransformSeries 2 3 (exponentTransformSeries 2 3 [1, -3]) = [1, -3] := by
  apply c1_roundtrip 2 3 [1, -3] (by norm_num)
  intro x hx
  simp only [List.mem_cons, List.not_mem_nil, or_false] at hx
  rcases hx with h | h
  · norm_num [h]
  · norm_num [h]

/-- C1 counterexample: with power 2 and offset 0 every intermediate value of
the computation on the series [-2] is a real number, yet
inverse_transform(transform([-2])) = [2] ≠ [-2]: realness of the
intermediates does not suffice for the round trip. -/
theorem c1_roundtrip_counterexample :
    exponentInverseTransformSeries 2 0 (exponentTransformSeries 2 0 [-2]) ≠ [-2] := by
  have h4 : exponentTransform 2 0 (-2) = 4 := by
    unfold exponentTransform
    have h2 : ((-2 : ℝ) + 0) = -2 := by norm_num
    rw [h2]
    have hn : ((-2 : ℝ)) ^ ((2 : ℕ) : ℝ) = ((-2 : ℝ)) ^ (2 : ℕ) := Real.rpow_natCast (-2) 2
    have he : ((2 : ℕ) : ℝ) = (2 : ℝ) := by norm_num
    rw [he] at hn
    rw [hn]
    norm_num
  have hs : exponentInverseTransform 2 0 4 = 2 := by
    unfold exponentInverseTransform
    have h42 : (4 : ℝ) = (2 : ℝ) ^ ((2 : ℕ) : ℝ) := by
      rw [Real.rpow_natCast]
      norm_num
    have hmul : ((2 : ℝ) ^ ((2 : ℕ) : ℝ)) ^ ((1 : ℝ) / 2) = (2 : ℝ) ^ (((2 : ℕ) : ℝ) * (1 / 2)) :=
      (Real.rpow_mul (by norm_num) _ _).symm
    rw [h42, hmul]
    have he : (((2 : ℕ) : ℝ)) * ((1 : ℝ) / 2) = 1 := by norm_num
    rw [he, Real.rpow_one]
    norm_num
  unfold exponentTransformSeries exponentInverseTransformSeries
  simp only [List.map_cons, List.map_nil, h4, hs]
  intro hcontr
  have : (2 : ℝ) = -2 := by
    have := List.head_eq_of_cons_eq hcontr
    exact this
  norm_num at this

/-- C7: ExponentTransformer with power 0.5 and SqrtTransformer produce
identical outputs for transform and for inverse_transform, at every offset,
on every value and hence on every series. -/
theorem c7_sqrt_is_exponent_half (offset x : ℝ) (xs : List ℝ) :
    sqrtTransform offset x = exponentTransform 0.5 offset x
    ∧ sqrtInverseTransform offset x = exponentInverseTransform 0.5 offset x
    ∧ xs.map (sqrtTransform offset) = exponentTransformSeries 0.5 offset xs
    ∧ xs.map (sqrtInverseTransform offset) = exponentInverseTransformSeries 0.5 offset xs := by
  refine ⟨rfl, rfl, ?_, ?_⟩
  · rfl
  · rfl

/-
ExponentTransformer._fit:
  - raises ValueError when `power` is not an int or float;
  - when offset == "auto": per column, offset = np.where(min < 0, abs(min), 0);
  - when `offset` is an int or float: stored directly;
  - otherwise raises ValueError.
Python parameter values are modelled by `PyParam`; a dataframe is a list of
columns, each a list of rational values; a series is the one-column case.
-/

/-- A Python value supplied as the `power` or `offset` constructor parameter. -/
inductive PyParam where
  | int : Int → PyParam
  | float : ℚ → PyParam
  | str : String → PyParam
  | noneVal : PyParam
deriving DecidableEq

/-- Whether the value passes isinstance(v, (int, float)). -/
def PyParam.isNumber : PyParam → Bool
  | .int _ => true
  | .float _ => true
  | _ => false

/-- Name of the Python type, used in the validation error message. -/
def PyParam.typeName : PyParam → String
  | .int _ => "int"
  | .float _ => "float"
  | .str _ => "str"
  | .noneVal => "NoneType"

/-- Numeric content of an int or float parameter. -/
def PyParam.toRat : PyParam → ℚ
  | .int n => (n : ℚ)
  | .float q => q
  | _ => 0

/-- Minimum of a column of values (the .min() reduction; columns are nonempty
in any well-formed frame, the empty case is given a junk value). -/
def qMin : List ℚ → ℚ
  | [] => 0
  | h :: t => t.foldl min h

/-- Auto offset of one column: np.where(min < 0, np.abs(min), 0). -/
def autoOffset (col : List ℚ) : ℚ :=
  if qMin col < 0 then |qMin col| else 0

/-- ExponentTransformer._fit: validates the parameters and computes the
per-column stored offset values. -/
def exponentFit (power offset : PyParam) (cols : List (List ℚ)) :
    Except String (List ℚ) :=
  if power.isNumber = false then
    Except.error ("Expected power to be int or float, but found " ++ power.typeName)
  else if offset = PyParam.str "auto" then
    Except.ok (cols.map autoOffset)
  else if offset.isNumber then
    Except.ok (cols.map (fun _ => offset.toRat))
  else
    Except.error ("Expected offset to be int or float, but found " ++ offset.typeName)

/- foldl-min facts, used to relate qMin to membership and lower bounds. -/
theorem foldl_min_le_init {α : Type} [LinearOrder α] (t : List α) (a : α) :
    t.foldl min a ≤ a := by
  induction t generalizing a with
  | nil => simp
  | cons h t ih => exact le_trans (ih (min a h)) (min_le_left a h)

theorem foldl_min_le_mem {α : Type} [LinearOrder α] (t : List α) (a v : α)
    (hv : v ∈ t) : t.foldl min a ≤ v := by
  induction t generalizing a with
  | nil => cases hv
  | cons h t ih =>
      rcases List.mem_cons.mp hv with rfl | hmem
      · exact le_trans (foldl_min_le_init t (min a v)) (min_le_right a v)
      · exact ih (min a h) hmem

theorem foldl_min_mem_or {α : Type} [LinearOrder α] (t : List α) (a : α) :
    t.foldl min a = a ∨ t.foldl min a ∈ t := by
  induction t generalizing a with
  | nil => left; rfl
  | cons h t ih =>
      rcases ih (min a h) with heq | hmem
      · rcases min_choice a h with hc | hc
        · left; simpa [hc] using heq
        · right; rw [List.foldl_cons, heq, hc]; exact List.mem_cons_self _ _
      · right; exact List.mem_cons_of_mem _ hmem

theorem qMin_cons (h : ℚ) (t : List ℚ) : qMin (h :: t) = t.foldl min h := rfl

theorem qMin_mem (h : ℚ) (t : List ℚ) : qMin (h :: t) ∈ h :: t := by
  rw [qMin_cons]
  rcases foldl_min_mem_or t h with heq | hmem
  · rw [heq]; exact List.mem_cons_self _ _
  · exact List.mem_cons_of_mem _ hmem

theorem qMin_le (h : ℚ) (t : List ℚ) (v : ℚ) (hv : v ∈ h :: t) :
    qMin (h :: t) ≤ v := by
  rw [qMin_cons]
  rcases List.mem_cons.mp hv with rfl | hmem
  · exact foldl_min_le_init t v
  · exact foldl_min_le_mem t h v hmem

/-- C4: with offset="auto", fit stores, per column, the absolute value of the
most negative value when the column has a negative value and zero otherwise;
with a literal numeric offset, that value is stored directly for every column. -/
theorem c4_fit_offset (power : PyParam) (hp : power.isNumber = true)
    (cols : List (List ℚ)) :
    (exponentFit power (PyParam.str "auto") cols = Except.ok (cols.map autoOffset)
      ∧ ∀ col, col ≠ [] →
          ∃ m, m ∈ col ∧ (∀ x ∈ col, m ≤ x)
            ∧ autoOffset col = (if m < 0 then |m| else 0))
    ∧ (∀ q : ℚ, exponentFit power (PyParam.float q) cols
          = Except.ok (cols.map (fun _ => q)))
    ∧ (∀ n : Int, exponentFit power (PyParam.int n) cols
          = Except.ok (cols.map (fun _ => (n : ℚ)))) := by
  refine ⟨⟨?_, ?_⟩, ?_, ?_⟩
  · unfold exponentFit
    rw [hp]
    simp
  · intro col hcol
    match col, hcol with
    | h :: t, _ =>
        exact ⟨qMin (h :: t), qMin_mem h t, fun x hx => qMin_le h t x hx, rfl⟩
  · intro q
    unfold exponentFit
    rw [hp]
    simp [PyParam.isNumber, PyParam.toRat]
  · intro n
    unfold exponentFit
    rw [hp]
    simp [PyParam.isNumber, PyParam.toRat]

/-- C4 witness: a column with minimum -5 gets offset 5, a column with minimum
3 gets offset 0, and a literal offset 7 is stored directly. -/
theorem c4_fit_offset_witness :
    exponentFit (PyParam.float (1/2)) (PyParam.str "auto") [[-5, 2], [3, 4]]
      = Except.ok [5, 0]
    ∧ exponentFit (PyParam.float (1/2)) (PyParam.float 7) [[-5, 2], [3, 4]]
      = Except.ok [7, 7] := by
  constructor
  · rw [(c4_fit_offset (PyParam.float (1/2)) rfl [[-5, 2], [3, 4]]).1.1]
    congr 1
  · rw [(c4_fit_offset (PyParam.float (1/2)) rfl [[-5, 2], [3, 4]]).2.1 7]
    congr 1

/-- C8: fitting fails with the parameter-validation error naming the offending
type exactly when power is not numeric, or power is numeric but offset is
neither the string "auto" nor numeric; for all well-typed parameters fit
succeeds. -/
theorem c8_fit_validation (power offset : PyParam) (cols : List (List ℚ)) :
    (power.isNumber = false →
        exponentFit power offset cols
          = Except.error ("Expected power to be int or float, but found " ++ power.typeName))
    ∧ (power.isNumber = true → offset ≠ PyParam.str "auto" → offset.isNumber = false →
        exponentFit power offset cols
          = Except.error ("Expected offset to be int or float, but found " ++ offset.typeName))
    ∧ (power.isNumber = true → (offset = PyParam.str "auto" ∨ offset.isNumber = true) →
        ∃ offs, exponentFit power offset cols = Except.ok offs) := by
  have htf : ¬ (true = false) := by simp
  refine ⟨?_, ?_, ?_⟩
  · intro hp
    unfold exponentFit
    rw [hp]
    simp
  · intro hp hne hoff
    unfold exponentFit
    rw [hp, if_neg htf, if_neg hne, hoff]
    simp
  · intro hp hoff
    unfold exponentFit
    rw [hp, if_neg htf]
    rcases hoff with rfl | hnum
    · rw [if_pos rfl]
      exact ⟨_, rfl⟩
    · by_cases hauto : offset = PyParam.str "auto"
      · rw [if_pos hauto]
        exact ⟨_, rfl⟩
      · rw [if_neg hauto, if_pos hnum]
        exact ⟨_, rfl⟩

/-- C8 witness: a string power fails naming str; a numeric power with a None
offset fails naming NoneType; numeric power with auto offset succeeds. -/
theorem c8_fit_validation_witness :
    exponentFit (PyParam.str "two") (PyParam.str "auto") [[1]]
      = Except.error "Expected power to be int or float, but found str"
    ∧ exponentFit (PyParam.int 2) PyParam.noneVal [[1]]
      = Except.error "Expected offset to be int or float, but found NoneType"
    ∧ ∃ offs, exponentFit (PyParam.int 2) (PyParam.str "auto") [[1]] = Except.ok offs := by
  refine ⟨?_, ?_, ?_⟩
  · exact (c8_fit_validation (PyParam.str "two") (PyParam.str "auto") [[1]]).1 rfl
  · exact (c8_fit_validation (PyParam.int 2) PyParam.noneVal [[1]]).2.1 rfl (by decide) rfl
  · exact (c8_fit_validation (PyParam.int 2) (PyParam.str "auto") [[1]]).2.2 rfl (Or.inl rfl)

/-
PyTorchDataset (hf_transformers_forecaster.py): windows over a target series
y, window length seq_len, horizon fh, optional exogenous frame X.  Target
values are Option ℚ, `none` standing for a float NaN entry; exogenous rows
are lists of rationals.  Python slice a[i:j] is modelled by (drop i).take (j-i).
-/

/-- The windowed dataset: stored series, window length, horizon, exogenous data. -/
structure PyTorchDataset where
  y : List (Option ℚ)
  seq_len : Nat
  fh : Nat
  X : Option (List (List ℚ))

/-- PyTorchDataset.__len__: max(len(y) - seq_len - fh + 1, 0), over the integers. -/
def PyTorchDataset.len (d : PyTorchDataset) : Int :=
  max ((d.y.length : Int) - d.seq_len - d.fh + 1) 0

/-- The dictionary returned by PyTorchDataset.__getitem__. -/
structure DatasetItem where
  past_values : List (Option ℚ)
  past_time_features : List (List ℚ)
  future_time_features : List (List ℚ)
  past_observed_mask : List Int
  future_values : List (Option ℚ)

/-- PyTorchDataset.__getitem__: slices of y and X at offset i; when X is
absent, the placeholder tensors [[]] * fh and [[]] * seq_len from the source
take the place of the exogenous history and future rows. -/
def PyTorchDataset.getItem (d : PyTorchDataset) (i : Nat) : DatasetItem :=
  let hist_y := (d.y.drop i).take d.seq_len
  match d.X with
  | some xs =>
      { past_values := hist_y
        past_time_features := (xs.drop i).take d.seq_len
        future_time_features := (xs.drop (i + d.seq_len)).take d.fh
        past_observed_mask := hist_y.map (fun v => if v.isSome then 1 else 0)
        future_values := (d.y.drop (i + d.seq_len)).take d.fh }
  | none =>
      { past_values := hist_y
        past_time_features := List.replicate d.fh []
        future_time_features := List.replicate d.seq_len []
        past_observed_mask := hist_y.map (fun v => if v.isSome then 1 else 0)
        future_values := (d.y.drop (i + d.seq_len)).take d.fh }

/-- C5: the dataset length is max(len(y) - seq_len - fh + 1, 0); in particular
it is zero whenever window plus horizon exceeds the series length, and it is
5 for a series of length 10 with window 4 and horizon 2. -/
theorem c5_dataset_len (y : List (Option ℚ)) (seq_len fh : Nat)
    (X : Option (List (List ℚ))) :
    (PyTorchDataset.mk y seq_len fh X).len
        = max ((y.length : Int) - seq_len - fh + 1) 0
    ∧ (y.length < seq_len + fh → (PyTorchDataset.mk y seq_len fh X).len = 0)
    ∧ (y.length = 10 → seq_len = 4 → fh = 2 →
        (PyTorchDataset.mk y seq_len fh X).len = 5) := by
  refine ⟨rfl, ?_, ?_⟩
  · intro hlt
    unfold PyTorchDataset.len
    simp only
    omega
  · intro h10 h4 h2
    unfold PyTorchDataset.len
    simp only [h10, h4, h2]
    norm_num

/-- C5 witness: length 10, window 4, horizon 2 gives 5 windows; length 3 with
window 2 and horizon 2 gives 0 windows. -/
theorem c5_dataset_len_witness :
    (PyTorchDataset.mk (List.replicate 10 (some 1)) 4 2 none).len = 5
    ∧ (PyTorchDataset.mk (List.replicate 3 (some 1)) 2 2 none).len = 0 := by
  constructor
  · exact (c5_dataset_len (List.replicate 10 (some 1)) 4 2 none).2.2 (by decide) rfl rfl
  · exact (c5_dataset_len (List.replicate 3 (some 1)) 2 2 none).2.1 (by decide)

/-- C2: the item at offset i holds the target history y[i : i+seq_len] as
past_values, the exogenous history X[i : i+seq_len] as past_time_features,
the next fh exogenous rows X[i+seq_len : i+seq_len+fh] as
future_time_features, the non-missing mask over the history window as
past_observed_mask, and the next fh target values y[i+seq_len : i+seq_len+fh]
as future_values; without exogenous data both feature tensors are empty
placeholders (every row empty). -/
theorem c2_getitem (y : List (Option ℚ)) (xs : List (List ℚ)) (seq_len fh i : Nat) :
    ((PyTorchDataset.mk y seq_len fh (some xs)).getItem i).past_values
        = (y.drop i).take seq_len
    ∧ (∀ j, j < seq_len →
        ((PyTorchDataset.mk y seq_len fh (some xs)).getItem i).past_values[j]?
          = y[i + j]?)
    ∧ ((PyTorchDataset.mk y seq_len fh (some xs)).getItem i).past_time_features
        = (xs.drop i).take seq_len
    ∧ ((PyTorchDataset.mk y seq_len fh (some xs)).getItem i).future_time_features
        = (xs.drop (i + seq_len)).take fh
    ∧ ((PyTorchDataset.mk y seq_len fh (some xs)).getItem i).future_values
        = (y.drop (i + seq_len)).take fh
    ∧ (∀ j, j < fh →
        ((PyTorchDataset.mk y seq_len fh (some xs)).getItem i).future_values[j]?
          = y[i + seq_len + j]?)
    ∧ ((PyTorchDataset.mk y seq_len fh (some xs)).getItem i).past_observed_mask
        = ((y.drop i).take seq_len).map (fun v => if v.isSome then 1 else 0)
    ∧ (∀ r ∈ ((PyTorchDataset.mk y seq_len fh none).getItem i).past_time_features,
        r = ([] : List ℚ))
    ∧ (∀ r ∈ ((PyTorchDataset.mk y seq_len fh none).getItem i).future_time_features,
        r = ([] : List ℚ)) := by
  refine ⟨rfl, ?_, rfl, rfl, rfl, ?_, rfl, ?_, ?_⟩
  · intro j hj
    show ((y.drop i).take seq_len)[j]? = y[i + j]?
    rw [List.getElem?_take_of_lt hj, List.getElem?_drop]
  · intro j hj
    show ((y.drop (i + seq_len)).take fh)[j]? = y[i + seq_len + j]?
    rw [List.getElem?_take_of_lt hj, List.getElem?_drop]
  · intro r hr
    exact List.eq_of_mem_replicate hr
  · intro r hr
    exact List.eq_of_mem_replicate hr

/-- C2 witness: a concrete window of a length-4 series with one missing value
and a one-feature exogenous frame, at offset 1 with window 2 and horizon 1. -/
theorem c2_getitem_witness :
    ((PyTorchDataset.mk [some 1, none, some 3, some 4] 2 1
        (some [[10], [20], [30], [40]])).getItem 1).past_values[0]? = some none
    ∧ ((PyTorchDataset.mk [some 1, none, some 3, some 4] 2 1
        (some [[10], [20], [30], [40]])).getItem 1).future_values[0]? = some (some 4) := by
  constructor
  · rw [(c2_getitem [some 1, none, some 3, some 4] [[10], [20], [30], [40]] 2 1 1).2.1
        0 (by decide)]
    rfl
  · rw [(c2_getitem [some 1, none, some 3, some 4] [[10], [20], [30], [40]] 2 1 1).2.2.2.2.2.1
        0 (by decide)]
    rfl

/-- C10: when len(y) ≥ seq_len + fh, the exogenous frame is at least as long
as y, and i is a valid dataset index, every slice taken by __getitem__ stays
inside the underlying arrays, past_values has exactly seq_len elements and
future_values exactly fh elements (and likewise for the feature slices). -/
theorem c10_getitem_bounds (y : List (Option ℚ)) (xs : List (List ℚ))
    (seq_len fh i : Nat) (hfit : seq_len + fh ≤ y.length)
    (hx : y.length ≤ xs.length)
    (hi : (i : Int) < (PyTorchDataset.mk y seq_len fh (some xs)).len) :
    i + seq_len ≤ y.length
    ∧ i + seq_len + fh ≤ y.length
    ∧ i + seq_len + fh ≤ xs.length
    ∧ ((PyTorchDataset.mk y seq_len fh (some xs)).getItem i).past_values.length = seq_len
    ∧ ((PyTorchDataset.mk y seq_len fh (some xs)).getItem i).future_values.length = fh
    ∧ ((PyTorchDataset.mk y seq_len fh (some xs)).getItem i).past_time_features.length
        = seq_len
    ∧ ((PyTorchDataset.mk y seq_len fh (some xs)).getItem i).future_time_features.length
        = fh := by
  unfold PyTorchDataset.len at hi
  simp only at hi
  have hbound : i + seq_len + fh ≤ y.length := by omega
  have h1 : i + seq_len ≤ y.length := by omega
  have hxs : i + seq_len + fh ≤ xs.length := by omega
  refine ⟨h1, hbound, hxs, ?_, ?_, ?_, ?_⟩
  · show ((y.drop i).take seq_len).length = seq_len
    rw [List.length_take, List.length_drop]
    omega
  · show ((y.drop (i + seq_len)).take fh).length = fh
    rw [List.length_take, List.length_drop]
    omega
  · show ((xs.drop i).take seq_len).length = seq_len
    rw [List.length_take, List.length_drop]
    omega
  · show ((xs.drop (i + seq_len)).take fh).length = fh
    rw [List.length_take, List.length_drop]
    omega

/-- C10 witness: series of length 4, window 2, horizon 1, index 1 (the dataset
has length 2): both returned target tensors have exactly the demanded sizes. -/
theorem c10_getitem_bounds_witness :
    1 + 2 ≤ 4
    ∧ 1 + 2 + 1 ≤ 4
    ∧ 1 + 2 + 1 ≤ 4
    ∧ ((PyTorchDataset.mk [some 1, some 2, some 3, some 4] 2 1
        (some [[10], [20], [30], [40]])).getItem 1).past_values.length = 2
    ∧ ((PyTorchDataset.mk [some 1, some 2, some 3, some 4] 2 1
        (some [[10], [20], [30], [40]])).getItem 1).future_values.length = 1
    ∧ ((PyTorchDataset.mk [some 1, some 2, some 3, some 4] 2 1
        (some [[10], [20], [30], [40]])).getItem 1).past_time_features.length = 2
    ∧ ((PyTorchDataset.mk [some 1, some 2, some 3, some 4] 2 1
        (some [[10], [20], [30], [40]])).getItem 1).future_time_features.length = 1 := by
  exact c10_getitem_bounds [some 1, some 2, some 3, some 4] [[10], [20], [30], [40]]
    2 1 1 (by decide) (by decide) (by decide)

/-
HFTransformersForecaster._predict begins with
    if min(fh._values) < 0:
        raise NotImplementedError("LTSF is not supporting insample predictions.")
over the relative horizon offsets.  Only this guard is modelled; the rest of
the method delegates to the wrapped model.
-/

/-- Python min() over a nonempty list of integers (junk value on []). -/
def minInt : List Int → Int
  | [] => 0
  | h :: t => t.foldl min h

/-- The in-sample guard at the top of HFTransformersForecaster._predict. -/
def hfPredictCheck (fhValues : List Int) : Except String Unit :=
  if minInt fhValues < 0 then
    Except.error "LTSF is not supporting insample predictions."
  else
    Except.ok ()

theorem minInt_cons (h : Int) (t : List Int) : minInt (h :: t) = t.foldl min h := rfl

theorem minInt_mem (h : Int) (t : List Int) : minInt (h :: t) ∈ h :: t := by
  rw [minInt_cons]
  rcases foldl_min_mem_or t h with heq | hmem
  · rw [heq]; exact List.mem_cons_self _ _
  · exact List.mem_cons_of_mem _ hmem

theorem minInt_le (h : Int) (t : List Int) (v : Int) (hv : v ∈ h :: t) :
    minInt (h :: t) ≤ v := by
  rw [minInt_cons]
  rcases List.mem_cons.mp hv with rfl | hmem
  · exact foldl_min_le_init t v
  · exact foldl_min_le_mem t h v hmem

/-- C3 counterexample: the relative horizon [0] contains a non-positive
(historical) offset, yet the guard in _predict does not raise: the check
min(fh) < 0 only fires on strictly negative offsets. -/
theorem c3_insample_counterexample :
    (0 : Int) ≤ 0 ∧ hfPredictCheck [0] = Except.ok () := by
  constructor
  · decide
  · rfl

/-- C3 (amended): for every nonempty relative horizon, _predict raises the
unsupported-capability error exactly when the horizon contains a strictly
negative offset; a horizon whose offsets are all non-negative (zero included)
passes the guard. -/
theorem c3_insample_guard (fhValues : List Int) (hne : fhValues ≠ []) :
    (hfPredictCheck fhValues
        = Except.error "LTSF is not supporting insample predictions."
      ↔ ∃ v ∈ fhValues, v < 0)
    ∧ (hfPredictCheck fhValues = Except.ok () ↔ ∀ v ∈ fhValues, 0 ≤ v) := by
  match fhValues, hne with
  | h :: t, _ =>
      have hmin : minInt (h :: t) < 0 ↔ ∃ v ∈ h :: t, v < 0 := by
        constructor
        · intro hlt
          exact ⟨minInt (h :: t), minInt_mem h t, hlt⟩
        · rintro ⟨v, hv, hvneg⟩
          exact lt_of_le_of_lt (minInt_le h t v hv) hvneg
      constructor
      · constructor
        · intro herr
          by_contra hcon
          have hge : ¬ minInt (h :: t) < 0 := fun hlt => hcon (hmin.mp hlt)
          unfold hfPredictCheck at herr
          rw [if_neg hge] at herr
          cases herr
        · intro hex
          unfold hfPredictCheck
          rw [if_pos (hmin.mpr hex)]
      · constructor
        · intro hok v hv
          by_contra hneg
          have hlt : minInt (h :: t) < 0 := hmin.mpr ⟨v, hv, by omega⟩
          unfold hfPredictCheck at hok
          rw [if_pos hlt] at hok
          cases hok
        · intro hall
          unfold hfPredictCheck
          rw [if_neg ?_]
          intro hlt
          rcases hmin.mp hlt with ⟨v, hv, hvneg⟩
          exact absurd (hall v hv) (by omega)

/-- C3 witness: the horizon [2, -1, 3] contains a negative offset and the
guard raises; the horizon [1, 2] passes. -/
theorem c3_insample_guard_witness :
    hfPredictCheck [2, -1, 3] = Except.error "LTSF is not supporting insample predictions."
    ∧ hfPredictCheck [1, 2] = Except.ok () := by
  constructor
  · exact (c3_insample_guard [2, -1, 3] (by decide)).1.mpr ⟨-1, by decide, by decide⟩
  · refine (c3_insample_guard [1, 2] (by decide)).2.mpr ?_
    intro v hv
    rcases List.mem_cons.mp hv with rfl | hv2
    · decide
    · rcases List.mem_cons.mp hv2 with rfl | hv3
      · decide
      · cases hv3

/-
HFTransformersForecaster._fit, fit-strategy switch (after the model has been
loaded, its parameters frozen and mismatched tensors re-initialised):
    if fit_strategy == "minimal":
        if len(info["mismatched_keys"]) == 0: return
    elif fit_strategy == "full":
        for param in model.parameters(): param.requires_grad = True
    else:
        raise Exception("Unknown fit strategy")
    trainer.train()
Parameters are modelled by their requires_grad flags.
-/

/-- Outcome of the fit-strategy switch: training skipped, or training run with
the given requires_grad flags. -/
inductive FitOutcome where
  | skipped : FitOutcome
  | trained : List Bool → FitOutcome
deriving DecidableEq

/-- The fit-strategy switch of HFTransformersForecaster._fit. -/
def fitStrategyStep (fit_strategy : String) (mismatched_keys : Nat)
    (params : List Bool) : Except String FitOutcome :=
  if fit_strategy = "minimal" then
    if mismatched_keys = 0 then Except.ok FitOutcome.skipped
    else Except.ok (FitOutcome.trained params)
  else if fit_strategy = "full" then
    Except.ok (FitOutcome.trained (params.map (fun _ => true)))
  else
    Except.error "Unknown fit strategy"

/-- C6: with strategy "minimal" training is skipped iff no parameter was
shape-mismatched and runs on the unchanged flags otherwise; with "full" every
parameter is unfrozen before training; any other strategy fails with the
unrecognized-strategy error. -/
theorem c6_fit_strategy (mismatched_keys : Nat) (params : List Bool) :
    (fitStrategyStep "minimal" mismatched_keys params = Except.ok FitOutcome.skipped
      ↔ mismatched_keys = 0)
    ∧ (mismatched_keys ≠ 0 →
        fitStrategyStep "minimal" mismatched_keys params
          = Except.ok (FitOutcome.trained params))
    ∧ (∃ g, fitStrategyStep "full" mismatched_keys params
          = Except.ok (FitOutcome.trained g)
        ∧ g.length = params.length ∧ ∀ b ∈ g, b = true)
    ∧ (∀ s, s ≠ "minimal" → s ≠ "full" →
        fitStrategyStep s mismatched_keys params
          = Except.error "Unknown fit strategy") := by
  refine ⟨?_, ?_, ?_, ?_⟩
  · unfold fitStrategyStep
    rw [if_pos rfl]
    constructor
    · intro hok
      by_contra hne
      rw [if_neg hne] at hok
      cases hok
    · intro h0
      rw [if_pos h0]
  · intro hne
    unfold fitStrategyStep
    rw [if_pos rfl, if_neg hne]
  · refine ⟨params.map (fun _ => true), ?_, by simp, by simp⟩
    unfold fitStrategyStep
    rw [if_neg (by decide), if_pos rfl]
  · intro s hsmin hsfull
    unfold fitStrategyStep
    rw [if_neg hsmin, if_neg hsfull]

/-- C6 witness: minimal with no mismatches skips, minimal with 3 mismatches
trains on the frozen flags, full unfreezes both parameters, and the strategy
"average" is rejected. -/
theorem c6_fit_strategy_witness :
    fitStrategyStep "minimal" 0 [false] = Except.ok FitOutcome.skipped
    ∧ fitStrategyStep "minimal" 3 [false, true]
        = Except.ok (FitOutcome.trained [false, true])
    ∧ (∃ g, fitStrategyStep "full" 0 [false, false]
        = Except.ok (FitOutcome.trained g) ∧ g.length = 2 ∧ ∀ b ∈ g, b = true)
    ∧ fitStrategyStep "average" 1 [] = Except.error "Unknown fit strategy" := by
  refine ⟨?_, ?_, ?_, ?_⟩
  · exact (c6_fit_strategy 0 [false]).1.mpr rfl
  · exact (c6_fit_strategy 3 [false, true]).2.1 (by decide)
  · rcases (c6_fit_strategy 0 [false, false]).2.2.1 with ⟨g, hg, hlen, hall⟩
    exact ⟨g, hg, by rw [hlen]; rfl, hall⟩
  · exact (c6_fit_strategy 1 []).2.2.2 "average" (by decide) (by decide)

/-
Aliasing model for ExponentTransformer._transform / _inverse_transform.
A heap holds the numeric arrays live in the interpreter; an array value is a
pointer into it.  The numpy operations the two methods use - .copy(),
adding or subtracting a scalar, np.power - all allocate a fresh array and
never write through an existing pointer, which is exactly what the heap
embedding records.
-/

/-- The live numeric arrays; a pandas/numpy container is an index into it. -/
abbrev Heap := List (List ℝ)

/-- Dereference a container pointer. -/
def heapRead (h : Heap) (p : Nat) : Option (List ℝ) := h[p]?

/-- Allocate a fresh array, returning the new heap and its pointer. -/
def heapAlloc (h : Heap) (v : List ℝ) : Heap × Nat := (h ++ [v], h.length)

/-- X.copy(): allocates a duplicate of the pointed-to array. -/
def copyArray (h : Heap) (p : Nat) : Heap × Nat :=
  heapAlloc h ((heapRead h p).getD [])

/-- Elementwise addition of a scalar (Zt + offset): allocates the result. -/
noncomputable def addScalar (h : Heap) (p : Nat) (c : ℝ) : Heap × Nat :=
  heapAlloc h (((heapRead h p).getD []).map (fun x => x + c))

/-- Elementwise subtraction of a scalar (... - offset): allocates the result. -/
noncomputable def subScalar (h : Heap) (p : Nat) (c : ℝ) : Heap × Nat :=
  heapAlloc h (((heapRead h p).getD []).map (fun x => x - c))

/-- np.power(a, e): allocates the elementwise real power. -/
noncomputable def powScalar (h : Heap) (p : Nat) (e : ℝ) : Heap × Nat :=
  heapAlloc h (((heapRead h p).getD []).map (fun x => x ^ e))

/-- _transform on the heap: Zt = X.copy(); Xt = np.power(Zt + offset, power). -/
noncomputable def transformHeap (h : Heap) (px : Nat) (power offset : ℝ) : Heap × Nat :=
  let s1 := copyArray h px
  let s2 := addScalar s1.1 s1.2 offset
  powScalar s2.1 s2.2 power

/-- _inverse_transform on the heap:
Z_inv = X.copy(); Xt = np.power(Z_inv, 1.0 / power) - offset. -/
noncomputable def inverseTransformHeap (h : Heap) (px : Nat) (power offset : ℝ) :
    Heap × Nat :=
  let s1 := copyArray h px
  let s2 := powScalar s1.1 s1.2 (1 / power)
  subScalar s2.1 s2.2 offset

theorem heapRead_alloc (h : Heap) (v : List ℝ) (p : Nat) (hp : p < h.length) :
    heapRead (heapAlloc h v).1 p = heapRead h p := by
  unfold heapRead heapAlloc
  exact List.getElem?_append_left hp

theorem length_copyArray (h : Heap) (p : Nat) :
    (copyArray h p).1.length = h.length + 1 := by
  unfold copyArray heapAlloc
  simp

theorem length_addScalar (h : Heap) (p : Nat) (c : ℝ) :
    (addScalar h p c).1.length = h.length + 1 := by
  unfold addScalar heapAlloc
  simp

theorem length_subScalar (h : Heap) (p : Nat) (c : ℝ) :
    (subScalar h p c).1.length = h.length + 1 := by
  unfold subScalar heapAlloc
  simp

theorem length_powScalar (h : Heap) (p : Nat) (e : ℝ) :
    (powScalar h p e).1.length = h.length + 1 := by
  unfold powScalar heapAlloc
  simp

theorem heapRead_copyArray (h : Heap) (p q : Nat) (hq : q < h.length) :
    heapRead (copyArray h p).1 q = heapRead h q :=
  heapRead_alloc h _ q hq

theorem heapRead_addScalar (h : Heap) (p : Nat) (c : ℝ) (q : Nat) (hq : q < h.length) :
    heapRead (addScalar h p c).1 q = heapRead h q :=
  heapRead_alloc h _ q hq

theorem heapRead_subScalar (h : Heap) (p : Nat) (c : ℝ) (q : Nat) (hq : q < h.length) :
    heapRead (subScalar h p c).1 q = heapRead h q :=
  heapRead_alloc h _ q hq

theorem heapRead_powScalar (h : Heap) (p : Nat) (e : ℝ) (q : Nat) (hq : q < h.length) :
    heapRead (powScalar h p e).1 q = heapRead h q :=
  heapRead_alloc h _ q hq

theorem snd_addScalar (h : Heap) (p : Nat) (c : ℝ) : (addScalar h p c).2 = h.length := rfl

theorem snd_subScalar (h : Heap) (p : Nat) (c : ℝ) : (subScalar h p c).2 = h.length := rfl

theorem snd_powScalar (h : Heap) (p : Nat) (e : ℝ) : (powScalar h p e).2 = h.length := rfl

/-- C9: transform and inverse_transform leave the caller's container intact:
after either runs, the input pointer dereferences to the array it held before,
and the returned container is a different one. -/
theorem c9_no_mutation (h : Heap) (px : Nat) (power offset : ℝ)
    (hp : px < h.length) :
    heapRead (transformHeap h px power offset).1 px = heapRead h px
    ∧ (transformHeap h px power offset).2 ≠ px
    ∧ heapRead (inverseTransformHeap h px power offset).1 px = heapRead h px
    ∧ (inverseTransformHeap h px power offset).2 ≠ px := by
  have hc : (copyArray h px).1.length = h.length + 1 := length_copyArray h px
  refine ⟨?_, ?_, ?_, ?_⟩
  · show heapRead (powScalar (addScalar (copyArray h px).1 (copyArray h px).2 offset).1
        (addScalar (copyArray h px).1 (copyArray h px).2 offset).2 power).1 px = heapRead h px
    rw [heapRead_powScalar _ _ _ _ (by rw [length_addScalar, hc]; omega)]
    rw [heapRead_addScalar _ _ _ _ (by rw [hc]; omega)]
    exact heapRead_copyArray h px px hp
  · show (powScalar (addScalar (copyArray h px).1 (copyArray h px).2 offset).1
        (addScalar (copyArray h px).1 (copyArray h px).2 offset).2 power).2 ≠ px
    rw [snd_powScalar, length_addScalar, hc]
    omega
  · show heapRead (subScalar (powScalar (copyArray h px).1 (copyArray h px).2 (1 / power)).1
        (powScalar (copyArray h px).1 (copyArray h px).2 (1 / power)).2 offset).1 px
        = heapRead h px
    rw [heapRead_subScalar _ _ _ _ (by rw [length_powScalar, hc]; omega)]
    rw [heapRead_powScalar _ _ _ _ (by rw [hc]; omega)]
    exact heapRead_copyArray h px px hp
  · show (subScalar (powScalar (copyArray h px).1 (copyArray h px).2 (1 / power)).1
        (powScalar (copyArray h px).1 (copyArray h px).2 (1 / power)).2 offset).2 ≠ px
    rw [snd_subScalar, length_powScalar, hc]
    omega

/-- C9 witness: on a one-array heap, the stored array [1, 2] is unchanged by
both operations and neither result aliases it. -/
theorem c9_no_mutation_witness :
    heapRead (transformHeap [[1, 2]] 0 2 3).1 0 = heapRead [[1, 2]] 0
    ∧ (transformHeap [[1, 2]] 0 2 3).2 ≠ 0
    ∧ heapRead (inverseTransformHeap [[1, 2]] 0 2 3).1 0 = heapRead [[1, 2]] 0
    ∧ (inverseTransformHeap [[1, 2]] 0 2 3).2 ≠ 0 :=
  c9_no_mutation [[1, 2]] 0 2 3 (by decide)

end Sktime
